import Mathlib

/-!
Verification of the storj durability core against its specification.

This file gives a shallow embedding, in Lean 4, of the parts of the
repository that the claims concern:

* the audit `Verifier` (`Verify`, `DownloadShares` outcome classification,
  `auditShares`, `getSuccessNodes`, `createPendingAudits`, `Reverify`) from
  the `audit` package;
* the segment `Repairer.Repair` from the `segments` package;
* the satellite metainfo endpoint (`CommitSegment`, `filterValidPieces`,
  `validateCommit`, `validatePointer`, `validateBucket`, `CreatePath`,
  `calculateSpaceUsed`);
* `CalcNeededNodes` from the segment store (whose implementation is absent
  from the sources; it is modelled from the spec, see its doc comment).

Go machine integers are modelled as `Int` (no operation here approaches the
`int32`/`int64` bounds), byte strings as `List Nat`, nil-able Go pointers
and slices as `Option`, fallible calls as `Except`, and run-time panics
(nil dereference, index out of range, integer division by zero) as an
explicit `panicked`/`none` outcome.  External collaborators (overlay,
orders, erasure-code client, pointer database, network downloads) are
inputs: their results are fields of an environment record, so theorems
quantify over every behaviour those collaborators may exhibit.
-/

deriving instance DecidableEq for Except

/-- `storj.NodeID` (a 32-byte identifier); modelled as a natural number,
with `0` playing the role of the zero `NodeID` returned by Go map lookups
that miss. -/
abbrev NodeId := Nat

/-- A Go byte slice. -/
abbrev Bytes := List Nat

/-- `pb.RedundancyScheme`: the five `int32` parameters of the erasure code. -/
structure RedundancyScheme where
  minReq : Int
  repairThreshold : Int
  successThreshold : Int
  total : Int
  erasureShareSize : Int
deriving DecidableEq

/-- `pb.RemotePiece`: one placed piece of a remote segment. -/
structure RemotePiece where
  pieceNum : Int
  nodeId : NodeId
  hash : Bytes
deriving DecidableEq

/-- `pb.RemoteSegment`.  `redundancy` and `remotePieces` are nil-able in Go
(protobuf pointer and slice), hence `Option`. -/
structure RemoteSegment where
  rootPieceId : Nat
  redundancy : Option RedundancyScheme
  remotePieces : Option (List RemotePiece)
deriving DecidableEq

/-- `pb.Pointer_INLINE` / `pb.Pointer_REMOTE`. -/
inductive PointerType
  | inlineType
  | remoteType
deriving DecidableEq

/-- `pb.Pointer`: the authoritative per-segment record. -/
structure Pointer where
  type : PointerType
  segmentSize : Int
  inlineSegment : Option Bytes
  remote : Option RemoteSegment
deriving DecidableEq

instance : Inhabited RemoteSegment := ⟨⟨0, none, none⟩⟩

instance : Inhabited Pointer := ⟨⟨.inlineType, 0, none, none⟩⟩

/-- The pieces of a remote segment as seen through the nil-safe protobuf
getter `GetRemotePieces` (a nil slice reads as empty). -/
def RemoteSegment.pieces (r : RemoteSegment) : List RemotePiece :=
  r.remotePieces.getD []

/-! ## Audit verifier

`Verify` downloads one share per piece-holder and classifies each node.
A failed download carries a Go error value; the classification code tests
that value with exactly three predicates, so the embedding records the
three test results.  The predicates come from distinct error systems:
`context.DeadlineExceeded` is a bare sentinel compared by equality, while
`transport.Error.Has` and `ContainError.Has` test `errs.Class` wrapping.
A bare sentinel is wrapped by no class, so a deadline-exceeded error
satisfies neither class test; `ShareErr.wf` captures that fact. -/

/-- The outcome of the three error tests applied by `Verify`/`Reverify` to
a failed share download. -/
structure ShareErr where
  /-- `share.Error == context.DeadlineExceeded` -/
  deadlineExceeded : Bool
  /-- `transport.Error.Has(share.Error)` -/
  transportError : Bool
  /-- `ContainError.Has(share.Error)` -/
  containError : Bool
deriving DecidableEq

/-- Well-formedness of a Go error value: the bare `context.DeadlineExceeded`
sentinel is not wrapped by any `errs.Class`, so equality with it excludes
both class tests. -/
def ShareErr.wf (e : ShareErr) : Prop :=
  e.deadlineExceeded = true → e.transportError = false ∧ e.containError = false

/-- One entry of the `shares`/`nodes` maps produced by
`Verifier.DownloadShares`: the piece number (the index of the order limit),
the storage node named by that limit, and the download outcome. -/
structure Download where
  pieceNum : Nat
  nodeId : NodeId
  result : Except ShareErr Bytes
deriving DecidableEq

/-- The branch condition of the classification loop in `Verifier.Verify`:
`share.Error == context.DeadlineExceeded || !transport.Error.Has(share.Error)
|| ContainError.Has(share.Error)`. -/
def isContainedErr (e : ShareErr) : Bool :=
  e.deadlineExceeded || !e.transportError || e.containError

/-- `containedNodes` as accumulated by the classification loop of `Verify`
(a map from piece number to node ID). -/
def containedNodesOf (downloads : List Download) : List (Nat × NodeId) :=
  downloads.filterMap fun d =>
    match d.result with
    | .error e => if isContainedErr e then some (d.pieceNum, d.nodeId) else none
    | .ok _ => none

/-- `offlineNodes` as accumulated by the classification loop of `Verify`. -/
def offlineNodesOf (downloads : List Download) : List NodeId :=
  downloads.filterMap fun d =>
    match d.result with
    | .error e => if isContainedErr e then none else some d.nodeId
    | .ok _ => none

/-- `sharesToAudit` as accumulated by the classification loop of `Verify`:
piece number and downloaded data of every successful download. -/
def sharesToAuditOf (downloads : List Download) : List (Nat × Bytes) :=
  downloads.filterMap fun d =>
    match d.result with
    | .error _ => none
    | .ok b => some (d.pieceNum, b)

/-- The `nodes` map built by `DownloadShares`: piece number to the
`StorageNodeId` of the corresponding order limit. -/
def nodesOf (downloads : List Download) : List (Nat × NodeId) :=
  downloads.map fun d => (d.pieceNum, d.nodeId)

/-- Go map read `m[n]` over a piece-number-keyed map: the zero value is
returned on a miss. -/
def lookupNode (nodes : List (Nat × NodeId)) (n : Nat) : NodeId :=
  ((nodes.find? fun p => p.1 == n).map (·.2)).getD 0

/-- Go map read over the `originals` share map; a miss reads as the zero
`Share`, whose `Data` is nil. -/
def lookupData (m : List (Nat × Bytes)) (n : Nat) : Bytes :=
  ((m.find? fun p => p.1 == n).map (·.2)).getD []

/-- The validity test of `infectious.NewFEC(required, total)`. -/
def fecParamsOk (required total : Nat) : Bool :=
  0 < required && 0 < total && required ≤ 256 && total ≤ 256 && required ≤ total

/-- `makeCopies`: deep-copies the audited shares into `infectious.Share`
values (number, data). -/
def makeCopies (originals : List (Nat × Bytes)) : List (Nat × Bytes) :=
  originals.map fun p => (p.1, p.2)

/-- `auditShares`: build the FEC, deep-copy the shares, run `f.Correct`
(which repairs the copies in place), and flag every piece number whose
corrected bytes differ from the downloaded ones.  `f.Correct` is the
Reed-Solomon correction primitive of the external `infectious` library; it
is a parameter (`correctFn`), so results hold for every possible
correction behaviour. -/
def auditShares (required total : Nat)
    (correctFn : List (Nat × Bytes) → Except String (List (Nat × Bytes)))
    (originals : List (Nat × Bytes)) :
    Except String (List Nat × List (Nat × Bytes)) :=
  if ¬ fecParamsOk required total then .error "invalid fec parameters"
  else
    match correctFn (makeCopies originals) with
    | .error m => .error m
    | .ok corrected =>
      .ok
        (corrected.filterMap fun c =>
          if lookupData originals c.1 ≠ c.2 then some c.1 else none,
        corrected)

/-- `getSuccessNodes`: every contacted node not recorded as failed, offline
or contained. -/
def getSuccessNodes (nodes : List (Nat × NodeId)) (failedNodes offlineNodes : List NodeId)
    (containedNodes : List (Nat × NodeId)) : List NodeId :=
  let fails := failedNodes ++ offlineNodes ++ containedNodes.map (·.2)
  (nodes.map (·.2)).filter fun nid => ¬ fails.contains nid

/-- `PendingAudit`: the record stored for a contained node. -/
structure PendingAudit where
  nodeId : NodeId
  pieceId : Nat
  stripeIndex : Int
  shareSize : Nat
  expectedShareHash : Bytes
deriving DecidableEq

/-- The part of a `Stripe` used by `createPendingAudits`. -/
structure StripeInfo where
  index : Int
  rootPieceId : Nat
deriving DecidableEq

/-- `Report`: the classification returned by `Verify`/`Reverify`.  The Go
field is `[]*PendingAudit` (a slice of pointers), hence
`List (Option PendingAudit)`: `Reverify` appends the nil pointer for its
contained results. -/
structure Report where
  successes : List NodeId
  fails : List NodeId
  offlines : List NodeId
  pendingAudits : List (Option PendingAudit)
deriving DecidableEq

/-- `createPendingAudits(containedNodes, correctedShares, stripe)`.

Faithful to the source, including its guard
`if len(containedNodes) > 0 { return nil, nil }`: when contained nodes
exist the function returns no pending audits and no error, and the
stripe-rebuild/`EncodeSingle`/SHA-256 body below the guard only runs with
an empty `containedNodes` map, over which the final loop produces nothing.
`rebuildFn` stands for `rebuildStripe` over the (external) FEC,
`encodeSingle` for `fec.EncodeSingle`, and `sha256` for
`pkcrypto.SHA256Hash`; all are parameters, so results hold for every
possible behaviour of those primitives. -/
def createPendingAudits (required total shareSize : Nat) (stripe : StripeInfo)
    (rebuildFn : List (Nat × Bytes) → Except String Bytes)
    (encodeSingle : Bytes → Nat → Bytes) (sha256 : Bytes → Bytes)
    (containedNodes : List (Nat × NodeId)) (correctedShares : List (Nat × Bytes)) :
    Except String (List PendingAudit) :=
  if 0 < containedNodes.length then .ok []
  else if ¬ fecParamsOk required total then .error "invalid fec parameters"
  else
    match rebuildFn correctedShares with
    | .error m => .error m
    | .ok stripeData =>
      .ok (containedNodes.map fun c =>
        { nodeId := c.2
          pieceId := stripe.rootPieceId
          stripeIndex := stripe.index
          shareSize := shareSize
          expectedShareHash := sha256 (encodeSingle stripeData c.1) })

/-- `Verifier.Verify` after `DownloadShares`: classify the download
outcomes, audit the successful shares, and assemble the report.  The Go
function returns a `(*Report, error)` pair; both components are kept.
`downloads` is the contacted-node map produced by `DownloadShares` (one
entry per non-nil order limit). -/
def verify (required total shareSize : Nat) (stripe : StripeInfo)
    (correctFn : List (Nat × Bytes) → Except String (List (Nat × Bytes)))
    (rebuildFn : List (Nat × Bytes) → Except String Bytes)
    (encodeSingle : Bytes → Nat → Bytes) (sha256 : Bytes → Bytes)
    (downloads : List Download) : Option Report × Option String :=
  let containedNodes := containedNodesOf downloads
  let offlineNodes := offlineNodesOf downloads
  let sharesToAudit := sharesToAuditOf downloads
  let nodes := nodesOf downloads
  if sharesToAudit.length < required then
    (some { successes := [], fails := [], offlines := offlineNodes, pendingAudits := [] },
     some "not enough shares for successful audit")
  else
    match auditShares required total correctFn sharesToAudit with
    | .error m =>
      (some { successes := [], fails := [], offlines := offlineNodes, pendingAudits := [] },
       some m)
    | .ok (pieceNums, correctedShares) =>
      let failedNodes := pieceNums.map (lookupNode nodes)
      let successNodes := getSuccessNodes nodes failedNodes offlineNodes containedNodes
      match createPendingAudits required total shareSize stripe rebuildFn encodeSingle
          sha256 containedNodes correctedShares with
      | .error m =>
        (some { successes := successNodes, fails := failedNodes, offlines := offlineNodes,
                pendingAudits := [] },
         some m)
      | .ok pendingAudits =>
        (some { successes := successNodes, fails := failedNodes, offlines := offlineNodes,
                pendingAudits := pendingAudits.map some },
         none)

/-! ## Audit reverify

`Reverify` dispatches one task per piece-holder and collects results over a
channel; the per-node work is sequential and independent, so it is embedded
as a per-piece function (`reverifyOne`) plus a report-assembly fold.  The
channel only permutes the order in which per-node results are appended to
the report, which no claim observes. -/

/-- Result of `containment.Get` for a node: no pending-audit record
(`ErrContainedNotFound`), some other database error, or the stored record. -/
inductive ContainmentResult
  | notFound
  | errOther (m : String)
  | found (p : PendingAudit)
deriving DecidableEq

/-- Result of `orders.CreateAuditOrderLimit` for a node: a usable limit, a
node-offline error (`overlay.ErrNodeOffline`), or some other error. -/
inductive OrderLimitResult
  | okLimit
  | nodeOffline
  | errOther (m : String)
deriving DecidableEq

/-- The per-node result status enumeration declared inside `Reverify`. -/
inductive RStatus
  | skipped
  | success
  | offline
  | failed
  | contained
  | erred
deriving DecidableEq

/-- The external collaborators consulted by `Reverify`, per node. -/
structure ReverifyEnv where
  containmentGet : NodeId → ContainmentResult
  createAuditOrderLimit : NodeId → OrderLimitResult
  getShare : NodeId → Except ShareErr Bytes
  sha256 : Bytes → Bytes

/-- The per-piece-holder task of `Reverify`: produce the result status and
the `pendingAudit` field of the channel message.  Faithful to the source:
the `contained` message is sent without setting `pendingAudit`, which
therefore stays the zero value (nil). -/
def reverifyOne (env : ReverifyEnv) (piece : RemotePiece) : RStatus × Option PendingAudit :=
  match env.containmentGet piece.nodeId with
  | .notFound => (.skipped, none)
  | .errOther _ => (.erred, none)
  | .found pending =>
    match env.createAuditOrderLimit pending.nodeId with
    | .nodeOffline => (.offline, none)
    | .errOther _ => (.erred, none)
    | .okLimit =>
      match env.getShare pending.nodeId with
      | .error e =>
        if e.deadlineExceeded || !e.transportError then (.contained, none)
        else (.offline, none)
      | .ok data =>
        if env.sha256 data = pending.expectedShareHash then (.success, none)
        else (.failed, none)

/-- `Verifier.Reverify`: run the per-piece task for every piece of the
stripe segment and assemble the report from the result statuses. -/
def reverify (env : ReverifyEnv) : List RemotePiece → Report × Option String
  | [] => ({ successes := [], fails := [], offlines := [], pendingAudits := [] }, none)
  | piece :: rest =>
    let r := reverify env rest
    let s := reverifyOne env piece
    match s.1 with
    | .success => ({ r.1 with successes := piece.nodeId :: r.1.successes }, r.2)
    | .offline => ({ r.1 with offlines := piece.nodeId :: r.1.offlines }, r.2)
    | .failed => ({ r.1 with fails := piece.nodeId :: r.1.fails }, r.2)
    | .contained => ({ r.1 with pendingAudits := s.2 :: r.1.pendingAudits }, r.2)
    | .erred => (r.1, some "reverify error")
    | .skipped => r

/-! ## Segment repairer

`Repairer.Repair` from the `segments` package.  The monkit meters marked
during a run are collected in a list of meter names.  External calls
(overlay cache, orders service, erasure-code client, pointer database) are
fields of `RepairEnv`.  `eestream.NewRedundancyStrategyFromProto` is not
under the sources; see `newRedundancyStrategyFromProto`. -/

/-- The errors `Repair` can return, by source branch. -/
inductive RepairErr
  | inlineSegment
  | badRedundancy
  | missingPiecesErr (m : String)
  | irreparable
  | unnecessary
  | badPath
  | wrapped (m : String)
deriving DecidableEq

/-- The external collaborators consulted by `Repair`.  `ecRepair` is the
erasure-code client's `Repair`: per new-piece slot, an optional successful
node together with its returned hash (`successfulNodes[i]`, `hashes[i]`;
a `none` slot is a failed or unattempted upload). -/
structure RepairEnv where
  getMissingPieces : Except String (List Int)
  createGetRepairOrderLimits : Except String Unit
  findStorageNodes : Except String Unit
  createPutRepairOrderLimits : Except String Unit
  ecGet : Except String Unit
  ecRange : Except String Unit
  ecRepair : Except String (List (Option NodeId × Bytes))
  metainfoPut : Pointer → Except String Unit

/-- Modelled from the spec: `eestream.NewRedundancyStrategyFromProto` (the
constructor of the redundancy strategy used by `Repair`) is not under the
sources; the spec states the scheme invariant
`1 ≤ min ≤ repair < optimal ≤ total` and `share_size > 0`, so the
constructor is modelled as accepting exactly the schemes satisfying it. -/
def redundancySchemeValid (r : RedundancyScheme) : Bool :=
  1 ≤ r.minReq && r.minReq ≤ r.repairThreshold &&
    r.repairThreshold < r.successThreshold && r.successThreshold ≤ r.total &&
    0 < r.erasureShareSize

/-- Modelled from the spec (see `redundancySchemeValid`): build the
redundancy strategy from the protobuf scheme, rejecting a nil or invalid
scheme. -/
def newRedundancyStrategyFromProto (r : Option RedundancyScheme) :
    Except String RedundancyScheme :=
  match r with
  | none => .error "no redundancy scheme"
  | some red => if redundancySchemeValid red then .ok red else .error "invalid redundancy scheme"

/-- `createBucketID(path)` (repairer variant): errors when the path has
fewer than three components. -/
def createBucketID (path : List String) : Except String Unit :=
  if path.length < 3 then .error "no bucket component in path" else .ok ()

/-- The classification meter marked at the end of a completed repair. -/
def repairOutcomeMeter (length repairThreshold successThreshold : Int) : String :=
  if length ≤ repairThreshold then "repair_failed"
  else if length < successThreshold then "repair_partial"
  else "repair_success"

/-- The `healthyPieces` selection of `Repair`: every piece of the pointer
whose piece number is not in the lost-pieces set. -/
def healthyPiecesOf (rem : RemoteSegment) (missingPieces : List Int) : List RemotePiece :=
  rem.pieces.filter fun piece => ¬ missingPieces.contains piece.pieceNum

/-- `numHealthy := len(pieces) - len(missingPieces)` in `Repair`. -/
def numHealthyOf (rem : RemoteSegment) (missingPieces : List Int) : Int :=
  (rem.pieces.length : Int) - (missingPieces.length : Int)

/-- The new pieces appended by `Repair` after `ec.Repair`: one per
successfully uploaded slot `i`, with `PieceNum: int32(i)` and the hash
returned by the node. -/
def uploadedPiecesOf (uploads : List (Option NodeId × Bytes)) : List RemotePiece :=
  uploads.enum.filterMap fun iu =>
    match iu.2.1 with
    | none => none
    | some nid => some { pieceNum := (iu.1 : Int), nodeId := nid, hash := iu.2.2 }

/-- The pointer rewritten by `Repair`: the original pointer with the
remote pieces replaced (`pointer.GetRemote().RemotePieces = healthyPieces`). -/
def repairedPointer (ptr : Pointer) (rem : RemoteSegment) (pieces2 : List RemotePiece) : Pointer :=
  { ptr with remote := some { rem with remotePieces := some pieces2 } }

/-- The tail of `Repair` after the health checks: select healthy pieces,
create order limits, find new nodes, download and re-upload, rewrite the
pieces of the pointer, classify the outcome, and store the pointer. -/
def repairContinue (env : RepairEnv) (path : List String) (ptr : Pointer)
    (rem : RemoteSegment) (red : RedundancyScheme) (missingPieces : List Int)
    (meters : List String) : List String × Except RepairErr Pointer :=
  match createBucketID path with
  | .error _ => (meters, .error .badPath)
  | .ok _ =>
  match env.createGetRepairOrderLimits with
  | .error m => (meters, .error (.wrapped m))
  | .ok _ =>
  match env.findStorageNodes with
  | .error m => (meters, .error (.wrapped m))
  | .ok _ =>
  match env.createPutRepairOrderLimits with
  | .error m => (meters, .error (.wrapped m))
  | .ok _ =>
  match env.ecGet with
  | .error m => (meters, .error (.wrapped m))
  | .ok _ =>
  match env.ecRange with
  | .error m => (meters, .error (.wrapped m))
  | .ok _ =>
  match env.ecRepair with
  | .error m => (meters, .error (.wrapped m))
  | .ok uploads =>
    let healthyPieces2 := healthyPiecesOf rem missingPieces ++ uploadedPiecesOf uploads
    let ptr2 := repairedPointer ptr rem healthyPieces2
    let meters2 := meters ++
      [repairOutcomeMeter (healthyPieces2.length : Int) red.repairThreshold red.successThreshold]
    match env.metainfoPut ptr2 with
    | .error m => (meters2, .error (.wrapped m))
    | .ok _ => (meters2, .ok ptr2)

/-- `Repairer.Repair`: reject inline pointers, build the redundancy
strategy, compute the healthy-piece count and apply the irreparable and
unnecessary checks, then continue with `repairContinue`. -/
def repair (env : RepairEnv) (path : List String) (ptr : Pointer) :
    List String × Except RepairErr Pointer :=
  if ptr.type ≠ .remoteType then ([], .error .inlineSegment)
  else
    let meters := ["repair_attempts"]
    match ptr.remote with
    | none => (meters, .error .badRedundancy)
    | some rem =>
      match newRedundancyStrategyFromProto rem.redundancy with
      | .error _ => (meters, .error .badRedundancy)
      | .ok red =>
        match env.getMissingPieces with
        | .error m => (meters, .error (.missingPiecesErr m))
        | .ok missingPieces =>
          let numHealthy : Int := numHealthyOf rem missingPieces
          if numHealthy < red.minReq then
            (meters ++ ["repair_nodes_unavailable"], .error .irreparable)
          else if red.repairThreshold < numHealthy then
            (meters ++ ["repair_unnecessary"], .error .unnecessary)
          else
            repairContinue env path ptr rem red missingPieces meters

/-! ## Satellite metainfo endpoint

`CommitSegment` and the validators it runs, from
`satellite/metainfo/metainfo.go`.  gRPC status codes are an enumeration;
the pointer database, order-signature verification and piece-ID derivation
are environment inputs.  Go run-time panics (out-of-range slice index in
`validateCommit`, nil dereference, integer division by zero in
`calculateSpaceUsed`) are explicit outcomes. -/

/-- The gRPC status codes used by the endpoint. -/
inductive Code
  | unauthenticated
  | invalidArgument
  | internalCode
  | notFoundCode
  | resourceExhausted
deriving DecidableEq

/-- Result of a `CommitSegment` call: a committed pointer, a gRPC error, or
a run-time panic. -/
inductive CommitOutcome
  | ok (p : Pointer)
  | err (code : Code) (msg : String)
  | panicked (msg : String)
deriving DecidableEq

/-- `pb.OrderLimit2`, restricted to the fields `validateCommit` reads.
`pieceId = 0` plays the role of `PieceId.IsZero()`. -/
structure OrderLimit where
  pieceId : Nat
  storageNodeId : NodeId
deriving DecidableEq

instance : Inhabited OrderLimit := ⟨⟨0, 0⟩⟩

instance : Inhabited RedundancyScheme := ⟨⟨0, 0, 0, 0, 0⟩⟩

/-- `pb.SegmentCommitRequest` (after API-key resolution). -/
structure CommitReq where
  bucket : String
  path : String
  segment : Int
  pointer : Option Pointer
  originalLimits : List (Option OrderLimit)

/-- The collaborators consulted by `CommitSegment`: API-key validation,
order-limit signature verification, piece-ID derivation
(`RootPieceId.Derive(nodeId)`), and the pointer database. -/
structure CommitEnv where
  authOk : Bool
  verifySig : Option OrderLimit → Bool
  derive : Nat → NodeId → Nat
  metainfoPut : Except String Unit
  metainfoGet : Except String Pointer
  updatePutInlineOrder : Except String Unit

/-- `validateBucket` (over the characters of the bucket name). -/
def validateBucket (bucket : String) : Except String Unit :=
  if bucket.data.length = 0 then .error "bucket not specified"
  else if bucket.data.contains '/' then .error "bucket should not contain slash"
  else .ok ()

/-- `validatePointer`. -/
def validatePointer (pointer : Option Pointer) : Except String Unit :=
  match pointer with
  | none => .error "no pointer specified"
  | some ptr =>
    if ptr.type = .remoteType then
      match ptr.remote with
      | none => .error "no remote segment specified"
      | some rem =>
        if rem.remotePieces = none then .error "no remote segment pieces specified"
        else if rem.redundancy = none then .error "no redundancy scheme specified"
        else .ok ()
    else .ok ()

/-- The per-piece loop of `validateCommit`.  The Go slice index
`req.OriginalLimits[piece.PieceNum]` panics (result `none`) when the piece
number is negative or not below the slice length. -/
def checkPieces (env : CommitEnv) (limits : List (Option OrderLimit)) (rootPieceId : Nat) :
    List RemotePiece → Option (Except String Unit)
  | [] => some (.ok ())
  | piece :: rest =>
    if piece.pieceNum < 0 ∨ (limits.length : Int) ≤ piece.pieceNum then none
    else
      let limit := (limits.get? piece.pieceNum.toNat).getD none
      if ¬ env.verifySig limit then some (.error "order limit signature verification failed")
      else
        match limit with
        | none => some (.error "invalid no order limit for piece")
        | some l =>
          if l.pieceId = 0 ∨ l.pieceId ≠ env.derive rootPieceId piece.nodeId then
            some (.error "invalid order limit piece id")
          else if piece.nodeId ≠ l.storageNodeId then
            some (.error "piece NodeID != order limit NodeID")
          else checkPieces env limits rootPieceId rest

/-- `validateCommit`. -/
def validateCommit (env : CommitEnv) (req : CommitReq) : Option (Except String Unit) :=
  match validatePointer req.pointer with
  | .error m => some (.error m)
  | .ok _ =>
    match req.pointer with
    | none => some (.ok ())
    | some ptr =>
      if ptr.type = .remoteType then
        let rem := ptr.remote.getD default
        let red := rem.redundancy.getD default
        if req.originalLimits.length = 0 then some (.error "no order limits")
        else if (req.originalLimits.length : Int) ≠ red.total then
          some (.error "invalid no order limit for piece")
        else checkPieces env req.originalLimits rem.rootPieceId rem.pieces
      else some (.ok ())

/-- The message of the under-replication rejection in `filterValidPieces`,
as surfaced through `err.Error()` (with the `errs.Class` prefix). -/
def commitValidationMsg (numPieces repairThreshold : Int) : String :=
  "metainfo error: Number of valid pieces is less than or equal to the repair threshold: " ++
    toString numPieces ++ " < " ++ toString repairThreshold

/-- `filterValidPieces`.  The copying loop keeps every piece (hash
verification is commented out in the source); the check rejects a remote
pointer whose piece count is at most the repair threshold, unless the
repair and success thresholds coincide.  A nil `Remote` or nil `Redundancy`
on a remote pointer would be dereferenced, hence the `none` (panic) arms. -/
def filterValidPieces (ptr : Pointer) : Option (Except String Pointer) :=
  if ptr.type = .remoteType then
    match ptr.remote with
    | none => none
    | some rem =>
      match rem.redundancy with
      | none => none
      | some red =>
        let remotePieces := rem.pieces
        if (remotePieces.length : Int) ≤ red.repairThreshold ∧
            red.repairThreshold ≠ red.successThreshold then
          some (.error (commitValidationMsg (remotePieces.length : Int) red.repairThreshold))
        else
          some (.ok { ptr with remote := some { rem with remotePieces := some remotePieces } })
  else some (.ok ptr)

/-- `CreatePath`, restricted to its validation behaviour: a segment index
below `-1` is rejected. -/
def createPath (segmentIndex : Int) : Except String Unit :=
  if segmentIndex < -1 then .error "invalid segment index" else .ok ()

/-- `calculateSpaceUsed`.  For a pointer carrying inline bytes the inline
size is reported; otherwise, for a remote pointer, the per-piece size is
`segmentSize / MinReq` using Go `int64` division (`Int.tdiv`), which
panics (`none`) when `MinReq` is zero; the nil-safe getters read a missing
redundancy as zero. -/
def calculateSpaceUsed (ptr : Pointer) : Option (Int × Int) :=
  match ptr.inlineSegment with
  | some inline => some ((inline.length : Int), 0)
  | none =>
    match ptr.remote with
    | none => some (0, 0)
    | some rem =>
      let minReq := (rem.redundancy.map (·.minReq)).getD 0
      if minReq = 0 then none
      else some (0, Int.tdiv ptr.segmentSize minReq * (rem.pieces.length : Int))

/-- `Endpoint.CommitSegment`: authenticate, validate the bucket, the
request and the pieces, account the space used, store the pointer, update
inline-order accounting for inline pointers, and read the pointer back. -/
def commitSegment (env : CommitEnv) (req : CommitReq) : CommitOutcome :=
  if ¬ env.authOk then .err .unauthenticated "Invalid API credential"
  else
    match validateBucket req.bucket with
    | .error m => .err .invalidArgument m
    | .ok _ =>
    match validateCommit env req with
    | none => .panicked "runtime error: index out of range"
    | some (.error m) => .err .internalCode m
    | some (.ok _) =>
    match req.pointer with
    | none => .panicked "invalid memory address or nil pointer dereference"
    | some ptr =>
    match filterValidPieces ptr with
    | none => .panicked "invalid memory address or nil pointer dereference"
    | some (.error m) => .err .internalCode m
    | some (.ok ptr2) =>
    match createPath req.segment with
    | .error m => .err .invalidArgument m
    | .ok _ =>
    match calculateSpaceUsed ptr2 with
    | none => .panicked "runtime error: integer divide by zero"
    | some _used =>
    match env.metainfoPut with
    | .error m => .err .internalCode m
    | .ok _ =>
      let finish : CommitOutcome :=
        match env.metainfoGet with
        | .error m => .err .internalCode m
        | .ok p => .ok p
      if ptr.type = .inlineType then
        match env.updatePutInlineOrder with
        | .error m => .err .internalCode m
        | .ok _ => finish
      else finish

/-! ## CalcNeededNodes (segment store) -/

/-- Modelled from the spec: the implementation of `CalcNeededNodes` is not
under the sources (only its test, `TestCalcNeededNodes`, is).  The spec
prose defines it as `ceil(k·o/m)` "capped to ensure at least `k` are
requested"; this definition follows those words literally (with a
non-positive `m` the quotient imposes nothing, so only the `k` floor
applies). -/
def calcNeededNodesSpecFormula (k m o _n : Int) : Int :=
  if m ≤ 0 then k else max k (Int.tdiv (k * o + m - 1) m)

/-- Modelled from the spec: the implementation of `CalcNeededNodes` is not
under the sources; the eight example vectors given by the spec and by
`TestCalcNeededNodes` determine the extra-node rule
`min(total, min_req + extra)` where `extra = max(1, (total − optimal) ·
min_req / optimal)` when `optimal > 0` and `extra = 1` otherwise, which
reproduces every vector. -/
def CalcNeededNodes (k _m o n : Int) : Int :=
  let extra := if 0 < o then max 1 (Int.tdiv ((n - o) * k) o) else 1
  min n (k + extra)

/-- Substring containment over the characters of a string (the message
check `require.Contains` performs in the repository's tests). -/
def strContains (s pat : String) : Prop :=
  ∃ a b : String, s = a ++ pat ++ b

/-! ## Shared fixtures and helper lemmas -/

/-- A Verify run with two good shares and one deadline-exceeded download
(piece 2, held by node 3): the smallest run with a contained node. -/
def containedRunDownloads : List Download :=
  [⟨0, 1, .ok [7]⟩, ⟨1, 2, .ok [8]⟩, ⟨2, 3, .error ⟨true, false, false⟩⟩]

/-- A commit environment in which every external collaborator succeeds and
every order-limit signature verifies. -/
def okCommitEnv : CommitEnv :=
  { authOk := true
    verifySig := fun _ => true
    derive := fun r nid => r + nid + 1
    metainfoPut := .ok ()
    metainfoGet := .ok default
    updatePutInlineOrder := .ok () }

/-- A remote segment with one piece under redundancy
`(min 1, repair 2, optimal 4, total 6)`: under-replicated for commit. -/
def underReplicatedRem : RemoteSegment :=
  { rootPieceId := 5
    redundancy := some
      { minReq := 1, repairThreshold := 2, successThreshold := 4, total := 6,
        erasureShareSize := 10 }
    remotePieces := some [{ pieceNum := 0, nodeId := 3, hash := [] }] }

def underReplicatedPtr : Pointer :=
  { type := .remoteType
    segmentSize := 1000
    inlineSegment := none
    remote := some underReplicatedRem }

/-- A commit of `underReplicatedPtr` whose limits pass `validateCommit`
(six limits, the first derived for node 3 under `okCommitEnv.derive`). -/
def underReplicatedReq : CommitReq :=
  { bucket := "bucket"
    path := "path"
    segment := -1
    pointer := some underReplicatedPtr
    originalLimits :=
      [some ⟨9, 3⟩, some ⟨9, 9⟩, some ⟨9, 9⟩, some ⟨9, 9⟩, some ⟨9, 9⟩, some ⟨9, 9⟩] }

/-- A remote pointer whose redundancy carries `MinReq = 0` (with
`repair = optimal = 0`, the escape hatch, so commit validation passes). -/
def zeroMinReqPtr : Pointer :=
  { type := .remoteType
    segmentSize := 10
    inlineSegment := none
    remote := some
      { rootPieceId := 5
        redundancy := some
          { minReq := 0, repairThreshold := 0, successThreshold := 0, total := 1,
            erasureShareSize := 1 }
        remotePieces := some [{ pieceNum := 0, nodeId := 3, hash := [] }] } }

/-- A commit of `zeroMinReqPtr` whose single limit passes `validateCommit`. -/
def zeroMinReqReq : CommitReq :=
  { bucket := "b", path := "x", segment := -1, pointer := some zeroMinReqPtr,
    originalLimits := [some ⟨9, 3⟩] }

def reverifyTestPending : PendingAudit := ⟨1, 0, 0, 1, [9]⟩

def reverifyTestEnv : ReverifyEnv :=
  { containmentGet := fun n => if n = 1 then .found reverifyTestPending else .notFound
    createAuditOrderLimit := fun _ => .okLimit
    getShare := fun _ => .ok [9]
    sha256 := fun b => b }

/-- A remote segment with three pieces under scheme
`(min 2, repair 3, optimal 4, total 6)`. -/
def repairTestRem : RemoteSegment :=
  { rootPieceId := 1
    redundancy := some ⟨2, 3, 4, 6, 1⟩
    remotePieces := some [⟨0, 1, []⟩, ⟨1, 2, []⟩, ⟨2, 3, []⟩] }

def repairTestPtr : Pointer :=
  { type := .remoteType, segmentSize := 6, inlineSegment := none, remote := some repairTestRem }

/-- A repair environment in which pieces 0 and 1 are lost and every
collaborator succeeds. -/
def repairTestEnv : RepairEnv :=
  { getMissingPieces := .ok [0, 1]
    createGetRepairOrderLimits := .ok ()
    findStorageNodes := .ok ()
    createPutRepairOrderLimits := .ok ()
    ecGet := .ok ()
    ecRange := .ok ()
    ecRepair := .ok [(some 7, [1]), (none, []), (some 8, [2])]
    metainfoPut := fun _ => .ok () }

/-- A remote segment with four pieces under scheme
`(min 2, repair 3, optimal 4, total 6)`. -/
def c4Rem : RemoteSegment :=
  { rootPieceId := 1
    redundancy := some ⟨2, 3, 4, 6, 1⟩
    remotePieces := some [⟨0, 1, []⟩, ⟨1, 2, []⟩, ⟨2, 3, []⟩, ⟨3, 4, []⟩] }

def c4Ptr : Pointer :=
  { type := .remoteType, segmentSize := 6, inlineSegment := none, remote := some c4Rem }

/-- Upload results of the erasure-code client: slots 0 and 2 succeed. -/
def c4Uploads : List (Option NodeId × Bytes) := [(some 7, [1]), (none, []), (some 8, [2])]

/-- A repair environment in which piece 0 is lost, slots 0 and 2 upload
successfully, and every other collaborator succeeds. -/
def c4Env : RepairEnv :=
  { getMissingPieces := .ok [0]
    createGetRepairOrderLimits := .ok ()
    findStorageNodes := .ok ()
    createPutRepairOrderLimits := .ok ()
    ecGet := .ok ()
    ecRange := .ok ()
    ecRepair := .ok c4Uploads
    metainfoPut := fun _ => .ok () }

/-- A remote segment under scheme `(min 2, repair 3, optimal 4, total 6)`
with exactly three pieces: at the repair threshold. -/
def c5Rem : RemoteSegment :=
  { rootPieceId := 1
    redundancy := some ⟨2, 3, 4, 6, 1⟩
    remotePieces := some [⟨0, 1, []⟩, ⟨1, 2, []⟩, ⟨2, 3, []⟩] }

def c5Ptr : Pointer :=
  { type := .remoteType, segmentSize := 6, inlineSegment := none, remote := some c5Rem }

def c5Uploads : List (Option NodeId × Bytes) := [(some 7, [1]), (some 8, [2])]

/-- A repair environment with no lost pieces and two successful uploads. -/
def c5Env : RepairEnv :=
  { getMissingPieces := .ok []
    createGetRepairOrderLimits := .ok ()
    findStorageNodes := .ok ()
    createPutRepairOrderLimits := .ok ()
    ecGet := .ok ()
    ecRange := .ok ()
    ecRepair := .ok c5Uploads
    metainfoPut := fun _ => .ok () }

theorem stringAppendAssoc (a b c : String) : a ++ b ++ c = a ++ (b ++ c) := by
  apply String.ext
  simp [String.data_append]

theorem commitValidationMsgContains (n t : Int) :
    strContains (commitValidationMsg n t) "repair threshold" := by
  refine ⟨"metainfo error: Number of valid pieces is less than or equal to the ",
    ": " ++ toString n ++ " < " ++ toString t, ?_⟩
  have h : ("metainfo error: Number of valid pieces is less than or equal to the " ++
      "repair threshold" ++ ": " : String) =
      "metainfo error: Number of valid pieces is less than or equal to the repair threshold: " :=
    rfl
  unfold commitValidationMsg
  rw [← h]
  simp only [stringAppendAssoc]

/-! ## Claim theorems -/

/-- C9 (counterexample): the spec formula `ceil(k·o/m)` capped below by `k`
contradicts the spec's and test's own vector `(29, 35, 80, 95) → 34`: the
formula yields 67 there. -/
theorem calcNeededNodesFormulaRefutesTable :
    calcNeededNodesSpecFormula 29 35 80 95 = 67 ∧ (67 : Int) ≠ 34 := by
  decide

/-- C9 (amended): `CalcNeededNodes` matches the eight vectors of the test
table `(0,0,0,0)→0`, `(1,1,1,1)→1`, `(1,1,2,2)→2`, `(1,2,2,2)→2`,
`(2,3,4,4)→3`, `(2,4,6,8)→3`, `(20,30,40,50)→25`, `(29,35,80,95)→34`;
the defining rule is the extra-node rule of `CalcNeededNodes`, not the
spec prose formula. -/
theorem calcNeededNodesMatchesTable :
    CalcNeededNodes 0 0 0 0 = 0 ∧ CalcNeededNodes 1 1 1 1 = 1 ∧
    CalcNeededNodes 1 1 2 2 = 2 ∧ CalcNeededNodes 1 2 2 2 = 2 ∧
    CalcNeededNodes 2 3 4 4 = 3 ∧ CalcNeededNodes 2 4 6 8 = 3 ∧
    CalcNeededNodes 20 30 40 50 = 25 ∧ CalcNeededNodes 29 35 80 95 = 34 := by
  decide

/-- C1 (code bug): in a Verify run whose downloads are two good shares and
one deadline-exceeded failure, the returned report (with nil error) lists
nodes 1 and 2 as successes and nothing else: the contacted node 3 appears
in none of `Successes`, `Fails`, `Offlines`, `PendingAudits`, so the four
sets do not cover the contacted set.  The cause is the inverted guard in
`createPendingAudits` (`if len(containedNodes) > 0 { return nil, nil }`). -/
theorem verifyContainedNodeEscapesPartition :
    verify 2 4 1 ⟨0, 0⟩ (fun l => .ok l) (fun _ => .ok []) (fun _ _ => []) (fun b => b)
      containedRunDownloads =
      (some { successes := [1, 2], fails := [], offlines := [], pendingAudits := [] }, none) ∧
    (3 : NodeId) ∈ (nodesOf containedRunDownloads).map Prod.snd ∧
    (3 : NodeId) ∉ ([1, 2] : List NodeId) := by
  decide

/-- C2 (code bug): whatever the FEC rebuild, `encode_single` and SHA-256
primitives do, `createPendingAudits` returns the empty pending-audit list
(and no error) whenever at least one node is contained, because of its
guard `if len(containedNodes) > 0 { return nil, nil }`; no contained node
ever receives a PendingAudit record. -/
theorem createPendingAuditsDropsContained (required total shareSize : Nat)
    (stripe : StripeInfo) (rebuildFn : List (Nat × Bytes) → Except String Bytes)
    (encodeSingle : Bytes → Nat → Bytes) (sha256 : Bytes → Bytes)
    (containedNodes : List (Nat × NodeId)) (correctedShares : List (Nat × Bytes))
    (h : containedNodes ≠ []) :
    createPendingAudits required total shareSize stripe rebuildFn encodeSingle sha256
      containedNodes correctedShares = .ok [] := by
  unfold createPendingAudits
  have hl : 0 < containedNodes.length := List.length_pos.mpr h
  simp [hl]

theorem createPendingAuditsDropsContainedWitness :
    ([((2 : Nat), (3 : NodeId))] ≠ ([] : List (Nat × NodeId))) ∧
    createPendingAudits 2 4 1 ⟨0, 0⟩ (fun _ => .ok []) (fun _ _ => []) (fun b => b)
      [(2, 3)] [] = .ok [] :=
  ⟨by decide,
   createPendingAuditsDropsContained 2 4 1 ⟨0, 0⟩ (fun _ => .ok []) (fun _ _ => [])
     (fun b => b) [(2, 3)] [] (by decide)⟩

/-- C7 (counterexample): a download failure that is a transport error but
also carries the containment error class is classified contained, not
offline: node 3's download fails with such an error and node 3 lands in
`containedNodes` while `offlineNodes` stays empty, against the claim
"every download that fails with a transport error classifies that node as
offline". -/
theorem transportContainErrorClassifiedContained :
    (⟨false, true, true⟩ : ShareErr).transportError = true ∧
    containedNodesOf [⟨0, 3, .error ⟨false, true, true⟩⟩] = [(0, 3)] ∧
    offlineNodesOf [⟨0, 3, .error ⟨false, true, true⟩⟩] = [] := by
  decide

/-- C7 (amended): in Verify's classification of download outcomes, a
failure that is deadline-exceeded, or not a transport error, or carries
the containment error class, records the node as contained; a transport
error that is neither deadline-exceeded nor containment-classified records
the node as offline; a successful download makes the share a candidate for
erasure correction. -/
theorem downloadOutcomeClassification (downloads : List Download) :
    (∀ d e, d ∈ downloads → d.result = .error e →
      ((e.deadlineExceeded = true ∨ e.transportError = false ∨ e.containError = true) →
        (d.pieceNum, d.nodeId) ∈ containedNodesOf downloads) ∧
      (e.deadlineExceeded = false → e.transportError = true → e.containError = false →
        d.nodeId ∈ offlineNodesOf downloads)) ∧
    (∀ d b, d ∈ downloads → d.result = .ok b →
      (d.pieceNum, b) ∈ sharesToAuditOf downloads) := by
  constructor
  · intro d e hd hres
    constructor
    · intro hcase
      apply List.mem_filterMap.mpr
      refine ⟨d, hd, ?_⟩
      rw [hres]
      have hc : isContainedErr e = true := by
        unfold isContainedErr
        rcases hcase with h | h | h <;> simp [h]
      simp [hc]
    · intro h1 h2 h3
      apply List.mem_filterMap.mpr
      refine ⟨d, hd, ?_⟩
      rw [hres]
      have hc : isContainedErr e = false := by
        unfold isContainedErr
        simp [h1, h2, h3]
      simp [hc]
  · intro d b hd hres
    apply List.mem_filterMap.mpr
    refine ⟨d, hd, ?_⟩
    rw [hres]

theorem downloadOutcomeClassificationWitness :
    ((0, 4) ∈ containedNodesOf [⟨0, 4, .error ⟨true, false, false⟩⟩, ⟨1, 5, .ok [9]⟩]) ∧
    ((6 : NodeId) ∈ offlineNodesOf [⟨0, 6, .error ⟨false, true, false⟩⟩]) ∧
    ((1, [9]) ∈ sharesToAuditOf [⟨0, 4, .error ⟨true, false, false⟩⟩, ⟨1, 5, .ok [9]⟩]) :=
  ⟨((downloadOutcomeClassification _).1 ⟨0, 4, .error ⟨true, false, false⟩⟩
      ⟨true, false, false⟩ (by decide) rfl).1 (Or.inl rfl),
   ((downloadOutcomeClassification _).1 ⟨0, 6, .error ⟨false, true, false⟩⟩
      ⟨false, true, false⟩ (by decide) rfl).2 rfl rfl rfl,
   (downloadOutcomeClassification _).2 ⟨1, 5, .ok [9]⟩ [9] (by decide) rfl⟩

/-- C8: in Reverify, for a piece-holder with an outstanding pending audit
and a usable audit order limit: a downloaded share whose SHA-256 equals
the stored expected hash yields status success, a mismatch yields failure,
a (well-formed) transport error yields offline, a deadline-exceeded or
other non-transport error yields contained (the node stays pending, its
slot being appended to the report's PendingAudits); a piece-holder with no
pending record is skipped. -/
theorem reverifyPendingClassification (env : ReverifyEnv) (piece : RemotePiece)
    (pending : PendingAudit) :
    (env.containmentGet piece.nodeId = .notFound →
      reverifyOne env piece = (.skipped, none)) ∧
    (env.containmentGet piece.nodeId = .found pending →
      env.createAuditOrderLimit pending.nodeId = .okLimit →
      (∀ data, env.getShare pending.nodeId = .ok data →
        (env.sha256 data = pending.expectedShareHash →
          reverifyOne env piece = (.success, none)) ∧
        (env.sha256 data ≠ pending.expectedShareHash →
          reverifyOne env piece = (.failed, none))) ∧
      (∀ e, env.getShare pending.nodeId = .error e → e.wf →
        ((e.deadlineExceeded = true ∨ e.transportError = false) →
          reverifyOne env piece = (.contained, none)) ∧
        (e.transportError = true →
          reverifyOne env piece = (.offline, none)))) := by
  constructor
  · intro hnf
    simp [reverifyOne, hnf]
  · intro hfound hlimit
    constructor
    · intro data hdata
      constructor
      · intro heq
        simp [reverifyOne, hfound, hlimit, hdata, heq]
      · intro hne
        simp [reverifyOne, hfound, hlimit, hdata, hne]
    · intro e herr hwf
      constructor
      · intro hc
        have hb : (e.deadlineExceeded || !e.transportError) = true := by
          rcases hc with h | h <;> simp [h]
        simp [reverifyOne, hfound, hlimit, herr, hb]
      · intro htr
        have hdl : e.deadlineExceeded = false := by
          by_contra hcon
          have h2 := (hwf (by simpa using hcon)).1
          rw [h2] at htr
          exact Bool.false_ne_true htr
        have hb : (e.deadlineExceeded || !e.transportError) = false := by
          simp [hdl, htr]
        simp [reverifyOne, hfound, hlimit, herr, hb]

theorem reverifyPendingClassificationWitness :
    reverifyOne reverifyTestEnv ⟨0, 1, []⟩ = (.success, none) ∧
    reverifyOne reverifyTestEnv ⟨1, 2, []⟩ = (.skipped, none) :=
  ⟨(((reverifyPendingClassification reverifyTestEnv ⟨0, 1, []⟩ reverifyTestPending).2
      rfl rfl).1 [9] rfl).1 rfl,
   (reverifyPendingClassification reverifyTestEnv ⟨1, 2, []⟩ reverifyTestPending).1 rfl⟩

/-- Helper: whatever its collaborators do, the continuation of `Repair`
past the health checks never produces the irreparable or unnecessary
error. -/
theorem repairContinueNoThresholdError (env : RepairEnv) (path : List String) (ptr : Pointer)
    (rem : RemoteSegment) (red : RedundancyScheme) (missingPieces : List Int)
    (meters ms : List String) (r : Except RepairErr Pointer)
    (hres : repairContinue env path ptr rem red missingPieces meters = (ms, r)) :
    r ≠ .error .irreparable ∧ r ≠ .error .unnecessary := by
  unfold repairContinue at hres
  cases hb : createBucketID path <;> simp only [hb] at hres
  all_goals try (injection hres with ha hb2; subst hb2; constructor <;> simp)
  cases h1 : env.createGetRepairOrderLimits <;> simp only [h1] at hres
  all_goals try (injection hres with ha hb2; subst hb2; constructor <;> simp)
  cases h2 : env.findStorageNodes <;> simp only [h2] at hres
  all_goals try (injection hres with ha hb2; subst hb2; constructor <;> simp)
  cases h3 : env.createPutRepairOrderLimits <;> simp only [h3] at hres
  all_goals try (injection hres with ha hb2; subst hb2; constructor <;> simp)
  cases h4 : env.ecGet <;> simp only [h4] at hres
  all_goals try (injection hres with ha hb2; subst hb2; constructor <;> simp)
  cases h5 : env.ecRange <;> simp only [h5] at hres
  all_goals try (injection hres with ha hb2; subst hb2; constructor <;> simp)
  cases h6 : env.ecRepair <;> simp only [h6] at hres
  all_goals try (injection hres with ha hb2; subst hb2; constructor <;> simp)
  split at hres
  all_goals
    injection hres with ha hb2
    subst hb2
    constructor <;> simp

/-- Helper: when the continuation of `Repair` completes, the erasure-code
upload succeeded, the returned pointer carries the healthy pieces plus the
uploaded ones, the classification meter is appended, and the pointer was
stored. -/
theorem repairContinueOk (env : RepairEnv) (path : List String) (ptr : Pointer)
    (rem : RemoteSegment) (red : RedundancyScheme) (missingPieces : List Int)
    (meters ms : List String) (p2 : Pointer)
    (hres : repairContinue env path ptr rem red missingPieces meters = (ms, .ok p2)) :
    ∃ uploads, env.ecRepair = .ok uploads ∧
      p2 = repairedPointer ptr rem
        (healthyPiecesOf rem missingPieces ++ uploadedPiecesOf uploads) ∧
      ms = meters ++ [repairOutcomeMeter
        ((healthyPiecesOf rem missingPieces ++ uploadedPiecesOf uploads).length : Int)
        red.repairThreshold red.successThreshold] ∧
      env.metainfoPut p2 = .ok () := by
  unfold repairContinue at hres
  cases hb : createBucketID path <;> simp only [hb] at hres
  case error => simp at hres
  cases h1 : env.createGetRepairOrderLimits <;> simp only [h1] at hres
  case error => simp at hres
  cases h2 : env.findStorageNodes <;> simp only [h2] at hres
  case error => simp at hres
  cases h3 : env.createPutRepairOrderLimits <;> simp only [h3] at hres
  case error => simp at hres
  cases h4 : env.ecGet <;> simp only [h4] at hres
  case error => simp at hres
  cases h5 : env.ecRange <;> simp only [h5] at hres
  case error => simp at hres
  cases h6 : env.ecRepair <;> simp only [h6] at hres
  case error => simp at hres
  case ok uploads =>
    refine ⟨uploads, rfl, ?_⟩
    split at hres
    · simp at hres
    · rename_i val heq
      simp only [Prod.mk.injEq] at hres
      obtain ⟨hms, hp⟩ := hres
      have hp2 : p2 = repairedPointer ptr rem
          (healthyPiecesOf rem missingPieces ++ uploadedPiecesOf uploads) :=
        (Except.ok.inj hp).symm
      refine ⟨hp2, hms.symm, ?_⟩
      rw [hp2]
      exact heq

/-- Helper: the same characterization lifted to `repair` itself. -/
theorem repairOkSpec (env : RepairEnv) (path : List String) (ptr : Pointer)
    (rem : RemoteSegment) (red : RedundancyScheme) (missingPieces : List Int)
    (ms : List String) (p2 : Pointer)
    (hty : ptr.type = .remoteType) (hrem : ptr.remote = some rem)
    (hred : rem.redundancy = some red) (hvalid : redundancySchemeValid red = true)
    (hmp : env.getMissingPieces = .ok missingPieces)
    (hres : repair env path ptr = (ms, .ok p2)) :
    ∃ uploads, env.ecRepair = .ok uploads ∧
      p2 = repairedPointer ptr rem
        (healthyPiecesOf rem missingPieces ++ uploadedPiecesOf uploads) ∧
      ms = ["repair_attempts", repairOutcomeMeter
        ((healthyPiecesOf rem missingPieces ++ uploadedPiecesOf uploads).length : Int)
        red.repairThreshold red.successThreshold] ∧
      env.metainfoPut p2 = .ok () := by
  unfold repair at hres
  simp only [hty, hrem, hred, hmp, newRedundancyStrategyFromProto, hvalid, ne_eq,
    not_true_eq_false, if_false, ite_true, ite_false, if_true, reduceIte] at hres
  split at hres
  · simp at hres
  split at hres
  · simp at hres
  have hx := repairContinueOk env path ptr rem red missingPieces ["repair_attempts"] ms p2 hres
  simpa using hx

/-- C3: `Repair` of a remote pointer (valid scheme, lost-piece query
succeeding) fails as irreparable and marks the `repair_nodes_unavailable`
meter when `healthy = len(pieces) - len(missing) < min`; fails as
unnecessary and marks `repair_unnecessary` when `healthy` is strictly
above the repair threshold; and proceeds past both checks (neither error
can be returned) when `healthy` equals the repair threshold. -/
theorem repairThresholdClassification (env : RepairEnv) (path : List String) (ptr : Pointer)
    (rem : RemoteSegment) (red : RedundancyScheme) (missingPieces : List Int)
    (hty : ptr.type = .remoteType) (hrem : ptr.remote = some rem)
    (hred : rem.redundancy = some red) (hvalid : redundancySchemeValid red = true)
    (hmp : env.getMissingPieces = .ok missingPieces) :
    (numHealthyOf rem missingPieces < red.minReq →
      repair env path ptr =
        (["repair_attempts", "repair_nodes_unavailable"], .error .irreparable)) ∧
    (red.minReq ≤ numHealthyOf rem missingPieces →
      red.repairThreshold < numHealthyOf rem missingPieces →
      repair env path ptr =
        (["repair_attempts", "repair_unnecessary"], .error .unnecessary)) ∧
    (numHealthyOf rem missingPieces = red.repairThreshold →
      red.minReq ≤ numHealthyOf rem missingPieces →
      (repair env path ptr).2 ≠ .error .irreparable ∧
      (repair env path ptr).2 ≠ .error .unnecessary) := by
  refine ⟨?_, ?_, ?_⟩
  · intro h
    unfold repair
    simp only [hty, hrem, hred, hmp, newRedundancyStrategyFromProto, hvalid, ne_eq,
      not_true_eq_false, if_false, ite_true, ite_false, reduceIte]
    rw [if_pos h]
    rfl
  · intro hmin hrep
    unfold repair
    simp only [hty, hrem, hred, hmp, newRedundancyStrategyFromProto, hvalid, ne_eq,
      not_true_eq_false, if_false, ite_true, ite_false, reduceIte]
    rw [if_neg (not_lt.mpr hmin), if_pos hrep]
    rfl
  · intro heq hmin
    unfold repair
    simp only [hty, hrem, hred, hmp, newRedundancyStrategyFromProto, hvalid, ne_eq,
      not_true_eq_false, if_false, ite_true, ite_false, reduceIte]
    rw [if_neg (not_lt.mpr hmin), if_neg (by omega)]
    exact repairContinueNoThresholdError env path ptr rem red missingPieces
      ["repair_attempts"] _ _ rfl

theorem repairThresholdClassificationWitness :
    repair repairTestEnv ["p", "s0", "b", "x"] repairTestPtr =
      (["repair_attempts", "repair_nodes_unavailable"], .error .irreparable) :=
  (repairThresholdClassification repairTestEnv ["p", "s0", "b", "x"] repairTestPtr
    repairTestRem ⟨2, 3, 4, 6, 1⟩ [0, 1] rfl rfl rfl (by decide) rfl).1 (by decide)

/-- C4: when `Repair` completes without error (on a remote pointer with a
valid scheme), the rewritten pointer's piece set is the surviving healthy
pieces together with the new pieces whose upload succeeded; the marked
outcome meter is `repair_success` exactly when the new piece count reaches
the optimal threshold, `repair_partial` exactly when it is strictly
between the repair and optimal thresholds, and `repair_failed` exactly
when it is at most the repair threshold; and in all three cases the
rewritten pointer was stored. -/
theorem repairRewritesAndClassifies (env : RepairEnv) (path : List String) (ptr : Pointer)
    (rem : RemoteSegment) (red : RedundancyScheme) (missingPieces : List Int)
    (uploads : List (Option NodeId × Bytes)) (ms : List String) (p2 : Pointer)
    (hty : ptr.type = .remoteType) (hrem : ptr.remote = some rem)
    (hred : rem.redundancy = some red) (hvalid : redundancySchemeValid red = true)
    (hmp : env.getMissingPieces = .ok missingPieces)
    (hec : env.ecRepair = .ok uploads)
    (hres : repair env path ptr = (ms, .ok p2)) :
    p2 = repairedPointer ptr rem
      (healthyPiecesOf rem missingPieces ++ uploadedPiecesOf uploads) ∧
    env.metainfoPut p2 = .ok () ∧
    ("repair_success" ∈ ms ↔
      red.successThreshold ≤
        ((healthyPiecesOf rem missingPieces ++ uploadedPiecesOf uploads).length : Int)) ∧
    ("repair_partial" ∈ ms ↔
      red.repairThreshold <
        ((healthyPiecesOf rem missingPieces ++ uploadedPiecesOf uploads).length : Int) ∧
      ((healthyPiecesOf rem missingPieces ++ uploadedPiecesOf uploads).length : Int) <
        red.successThreshold) ∧
    ("repair_failed" ∈ ms ↔
      ((healthyPiecesOf rem missingPieces ++ uploadedPiecesOf uploads).length : Int) ≤
        red.repairThreshold) := by
  obtain ⟨uploads2, hec2, hp2, hms, hput⟩ :=
    repairOkSpec env path ptr rem red missingPieces ms p2 hty hrem hred hvalid hmp hres
  rw [hec] at hec2
  obtain rfl : uploads = uploads2 := Except.ok.inj hec2
  have hrs : red.repairThreshold < red.successThreshold := by
    simp only [redundancySchemeValid, Bool.and_eq_true, decide_eq_true_eq] at hvalid
    exact hvalid.1.1.2
  subst hms
  refine ⟨hp2, hput, ?_, ?_, ?_⟩ <;>
  · generalize ((healthyPiecesOf rem missingPieces ++ uploadedPiecesOf uploads).length : Int) = len
    unfold repairOutcomeMeter
    split_ifs with h1 h2 <;> simp <;> omega

theorem repairRewritesAndClassifiesWitness :
    (repairedPointer c4Ptr c4Rem (healthyPiecesOf c4Rem [0] ++ uploadedPiecesOf c4Uploads) =
      repairedPointer c4Ptr c4Rem
        (healthyPiecesOf c4Rem [0] ++ uploadedPiecesOf c4Uploads)) ∧
    c4Env.metainfoPut (repairedPointer c4Ptr c4Rem
      (healthyPiecesOf c4Rem [0] ++ uploadedPiecesOf c4Uploads)) = .ok () ∧
    ("repair_success" ∈ ["repair_attempts", "repair_success"] ↔
      (⟨2, 3, 4, 6, 1⟩ : RedundancyScheme).successThreshold ≤
        ((healthyPiecesOf c4Rem [0] ++ uploadedPiecesOf c4Uploads).length : Int)) ∧
    ("repair_partial" ∈ ["repair_attempts", "repair_success"] ↔
      (⟨2, 3, 4, 6, 1⟩ : RedundancyScheme).repairThreshold <
        ((healthyPiecesOf c4Rem [0] ++ uploadedPiecesOf c4Uploads).length : Int) ∧
      ((healthyPiecesOf c4Rem [0] ++ uploadedPiecesOf c4Uploads).length : Int) <
        (⟨2, 3, 4, 6, 1⟩ : RedundancyScheme).successThreshold) ∧
    ("repair_failed" ∈ ["repair_attempts", "repair_success"] ↔
      ((healthyPiecesOf c4Rem [0] ++ uploadedPiecesOf c4Uploads).length : Int) ≤
        (⟨2, 3, 4, 6, 1⟩ : RedundancyScheme).repairThreshold) :=
  repairRewritesAndClassifies c4Env ["p", "s0", "b"] c4Ptr c4Rem ⟨2, 3, 4, 6, 1⟩ [0]
    c4Uploads ["repair_attempts", "repair_success"]
    (repairedPointer c4Ptr c4Rem (healthyPiecesOf c4Rem [0] ++ uploadedPiecesOf c4Uploads))
    rfl rfl rfl (by decide) rfl rfl (by decide)

/-- C5: for a remote pointer whose piece count is at most the repair
threshold, if `Repair` completes and the marked outcome is
`repair_success`, the stored pointer's piece count is strictly above the
repair threshold and every healthy (non-missing) piece of the original
pointer is still present. -/
theorem repairMonotonicity (env : RepairEnv) (path : List String) (ptr : Pointer)
    (rem : RemoteSegment) (red : RedundancyScheme) (missingPieces : List Int)
    (ms : List String) (p2 : Pointer)
    (hty : ptr.type = .remoteType) (hrem : ptr.remote = some rem)
    (hred : rem.redundancy = some red) (hvalid : redundancySchemeValid red = true)
    (hmp : env.getMissingPieces = .ok missingPieces)
    (hlow : (rem.pieces.length : Int) ≤ red.repairThreshold)
    (hres : repair env path ptr = (ms, .ok p2))
    (hsucc : "repair_success" ∈ ms) :
    ∃ rem2, p2.remote = some rem2 ∧
      red.repairThreshold < (rem2.pieces.length : Int) ∧
      ∀ piece ∈ rem.pieces, ¬ missingPieces.contains piece.pieceNum →
        piece ∈ rem2.pieces := by
  obtain ⟨uploads, hec, hp2, hms, hput⟩ :=
    repairOkSpec env path ptr rem red missingPieces ms p2 hty hrem hred hvalid hmp hres
  subst hms
  have hmeter : repairOutcomeMeter
      ((healthyPiecesOf rem missingPieces ++ uploadedPiecesOf uploads).length : Int)
      red.repairThreshold red.successThreshold = "repair_success" := by
    rcases List.mem_cons.mp hsucc with h | h
    · exact absurd h (by decide)
    · exact (List.mem_singleton.mp h).symm
  have hgt : red.repairThreshold <
      ((healthyPiecesOf rem missingPieces ++ uploadedPiecesOf uploads).length : Int) := by
    by_contra hcon
    push_neg at hcon
    unfold repairOutcomeMeter at hmeter
    rw [if_pos hcon] at hmeter
    exact absurd hmeter (by decide)
  refine ⟨{ rem with
      remotePieces := some (healthyPiecesOf rem missingPieces ++ uploadedPiecesOf uploads) },
    ?_, ?_, ?_⟩
  · rw [hp2]
    rfl
  · simpa [RemoteSegment.pieces] using hgt
  · intro piece hmem hnotmissing
    have hmemh : piece ∈ healthyPiecesOf rem missingPieces := by
      unfold healthyPiecesOf
      exact List.mem_filter.mpr ⟨hmem, by simpa using hnotmissing⟩
    simp only [RemoteSegment.pieces, Option.getD]
    exact List.mem_append_left _ hmemh

theorem repairMonotonicityWitness :
    ∃ rem2,
      (repairedPointer c5Ptr c5Rem
        (healthyPiecesOf c5Rem [] ++ uploadedPiecesOf c5Uploads)).remote = some rem2 ∧
      (⟨2, 3, 4, 6, 1⟩ : RedundancyScheme).repairThreshold < (rem2.pieces.length : Int) ∧
      ∀ piece ∈ c5Rem.pieces, ¬ ([] : List Int).contains piece.pieceNum →
        piece ∈ rem2.pieces :=
  repairMonotonicity c5Env ["p", "s0", "b"] c5Ptr c5Rem ⟨2, 3, 4, 6, 1⟩ []
    ["repair_attempts", "repair_success"]
    (repairedPointer c5Ptr c5Rem (healthyPiecesOf c5Rem [] ++ uploadedPiecesOf c5Uploads))
    rfl rfl rfl (by decide) rfl (by decide) (by decide) (by decide)

/-- C6 (amended): a commit (authenticated, valid bucket, passing
`validateCommit`) of a REMOTE pointer with at most `repair threshold` many
remote pieces and `repair ≠ optimal` is rejected with status `Internal` —
not `InvalidArgument` — and a message containing "repair threshold"; a
commit with more pieces than the repair threshold, or with
`repair = optimal`, is not rejected by this check. -/
theorem commitRejectsUnderReplicated (env : CommitEnv) (req : CommitReq) (ptr : Pointer)
    (rem : RemoteSegment) (red : RedundancyScheme)
    (hauth : env.authOk = true)
    (hbucket : validateBucket req.bucket = .ok ())
    (hvc : validateCommit env req = some (.ok ()))
    (hptr : req.pointer = some ptr)
    (hty : ptr.type = .remoteType)
    (hrem : ptr.remote = some rem)
    (hred : rem.redundancy = some red) :
    ((rem.pieces.length : Int) ≤ red.repairThreshold →
      red.repairThreshold ≠ red.successThreshold →
      commitSegment env req =
        .err .internalCode
          (commitValidationMsg (rem.pieces.length : Int) red.repairThreshold) ∧
      strContains (commitValidationMsg (rem.pieces.length : Int) red.repairThreshold)
        "repair threshold") ∧
    (red.repairThreshold < (rem.pieces.length : Int) ∨
        red.repairThreshold = red.successThreshold →
      filterValidPieces ptr =
        some (.ok { ptr with remote := some { rem with remotePieces := some rem.pieces } })) := by
  constructor
  · intro hlen hne
    have hfErr : filterValidPieces ptr =
        some (.error (commitValidationMsg (rem.pieces.length : Int) red.repairThreshold)) := by
      unfold filterValidPieces
      simp only [hty, hrem, hred, ite_true, if_true, eq_self_iff_true]
      rw [if_pos ⟨hlen, hne⟩]
    constructor
    · unfold commitSegment
      simp only [hauth, hbucket, hvc, hptr, hfErr, not_true_eq_false, if_false, ite_false,
        Bool.not_eq_true]
    · exact commitValidationMsgContains _ _
  · intro hcase
    unfold filterValidPieces
    simp only [hty, hrem, hred, ite_true, if_true, eq_self_iff_true]
    rw [if_neg ?_]
    rcases hcase with h | h
    · intro ⟨h1, _⟩
      omega
    · intro ⟨_, h2⟩
      exact h2 h

theorem commitRejectsUnderReplicatedWitness :
    commitSegment okCommitEnv underReplicatedReq =
      .err .internalCode (commitValidationMsg ((underReplicatedRem.pieces.length : Int))
        (⟨1, 2, 4, 6, 10⟩ : RedundancyScheme).repairThreshold) ∧
    strContains (commitValidationMsg ((underReplicatedRem.pieces.length : Int))
      (⟨1, 2, 4, 6, 10⟩ : RedundancyScheme).repairThreshold) "repair threshold" :=
  (commitRejectsUnderReplicated okCommitEnv underReplicatedReq underReplicatedPtr
    underReplicatedRem ⟨1, 2, 4, 6, 10⟩ rfl (by decide) (by decide) rfl rfl rfl rfl).1
    (by decide) (by decide)

/-- C6 (counterexample): committing a remote pointer with one piece under
redundancy `(min 1, repair 2, optimal 4, total 6)` — under-replicated,
`repair ≠ optimal` — is rejected with status `Internal`, not the
`InvalidArgument` status the claim names, though the message does contain
"repair threshold". -/
theorem commitUnderReplicatedStatusNotInvalidArgument :
    commitSegment okCommitEnv underReplicatedReq =
      .err .internalCode (commitValidationMsg 1 2) ∧
    Code.internalCode ≠ Code.invalidArgument ∧
    strContains (commitValidationMsg 1 2) "repair threshold" :=
  ⟨by decide, by decide,
   ⟨"metainfo error: Number of valid pieces is less than or equal to the ", ": 1 < 2",
    by decide⟩⟩

/-- C10: `calculateSpaceUsed` returns the inline byte count (and zero
remote space) for a pointer carrying inline bytes; for a remote pointer it
returns zero inline space and `(segmentSize / MinReq) · |pieces|` using
unguarded integer division by `MinReq`; when such a pointer carries
`MinReq = 0` the division panics; and `CommitSegment`, which invokes it on
every committed pointer, panics on a remote commit with `MinReq = 0` that
passes all commit validation (possible because `repair = optimal` commits
skip the under-replication check). -/
theorem calculateSpaceUsedDivByZero :
    (∀ ptr inline, ptr.inlineSegment = some inline →
      calculateSpaceUsed ptr = some ((inline.length : Int), 0)) ∧
    (∀ ptr rem red, ptr.inlineSegment = none → ptr.remote = some rem →
      rem.redundancy = some red → red.minReq ≠ 0 →
      calculateSpaceUsed ptr =
        some (0, Int.tdiv ptr.segmentSize red.minReq * (rem.pieces.length : Int))) ∧
    (∀ ptr rem, ptr.inlineSegment = none → ptr.remote = some rem →
      (rem.redundancy.map (·.minReq)).getD 0 = 0 →
      calculateSpaceUsed ptr = none) ∧
    commitSegment okCommitEnv zeroMinReqReq =
      .panicked "runtime error: integer divide by zero" := by
  refine ⟨?_, ?_, ?_, by decide⟩
  · intro ptr inline hinl
    unfold calculateSpaceUsed
    simp [hinl]
  · intro ptr rem red hinl hrem hred hmin
    unfold calculateSpaceUsed
    simp [hinl, hrem, hred, hmin]
  · intro ptr rem hinl hrem hmin
    unfold calculateSpaceUsed
    simp [hinl, hrem, hmin]

theorem calculateSpaceUsedDivByZeroWitness :
    calculateSpaceUsed ⟨.inlineType, 5, some [1, 2], none⟩ = some (2, 0) ∧
    calculateSpaceUsed zeroMinReqPtr = none :=
  ⟨calculateSpaceUsedDivByZero.1 ⟨.inlineType, 5, some [1, 2], none⟩ [1, 2] rfl,
   calculateSpaceUsedDivByZero.2.2.1 zeroMinReqPtr _ rfl rfl (by decide)⟩
